import Mathlib

/-!
Verification development for the skin-lookup repository.

The repository performs content-based image similarity search.  The parts
embedded here are:

* `src/utils/skin_matcher.py` — `find_matching_skins`: the top-K ranking
  search loop (candidate traversal, per-candidate feature extraction,
  bounded best-K list via append/stable-sort/truncate, cooperative
  cancellation, processed/skipped counters).
* `src/utils/image_matcher.py` — `get_image_features` /
  `calculate_similarity`: the algorithm-name dispatch used by the search,
  together with `extract_dominant_colors_fast`.
* `src/utils/feature_extractors.py` — `convert_render_to_skin`,
  `extract_visible_skin_regions`, `color_palette_distance_fast` and
  friends.
* `src/algorithms/` — the registry (`__init__.py`) and the four registered
  algorithm classes (`balanced`, `render_to_skin`, `render_match`,
  `color_frequency`).

Modelling conventions: Python floats are modelled as exact reals (`ℝ`)
where square roots occur and as rationals (`ℚ`) where the code only adds,
divides and compares; decimal literals are taken at their decimal value.
Calls into third-party image libraries (PIL resampling, `imagehash`,
`numpy.histogramdd` binning, cv2/skimage, torch models) are modelled as
explicit function parameters ("oracles"); everything written in the
repository itself is translated from its source.
-/

namespace SkinLookup

/-! ## Stable sorting (CPython `list.sort` semantics)

`find_matching_skins` ranks with `top_matches.sort(key=lambda x: x[0])`.
CPython's `list.sort` is specified to be stable.  `insertKey` places the
new element after every element whose key is `≤` its own and before the
first strictly larger one; folding it over the list from the left yields a
stable sort by the key, i.e. exactly the observable behaviour of
CPython's sort with the given key. -/

section StableSort

variable {α : Type} {κ : Type} [LinearOrder κ]

/-- Insert `m` after all elements whose key is `≤ k m` (stable position). -/
def insertKey (k : α → κ) (m : α) : List α → List α
  | [] => [m]
  | x :: xs => if k m < k x then m :: x :: xs else x :: insertKey k m xs

/-- Stable sort by key `k`; models Python `l.sort(key=k)`. -/
def pySortKey (k : α → κ) (l : List α) : List α :=
  l.foldl (fun acc x => insertKey k x acc) []

end StableSort

/-! ## The top-K search loop (`src/utils/skin_matcher.py`, `find_matching_skins`)

The loop is generic in the feature-bundle type `φ`, the distance type `δ`
(a linear order; `ℚ` or `ℝ` at use sites) and the metrics payload `μ`:
the loop itself never inspects these beyond sorting by distance.  A
candidate file is a pair of its path and the result of
`get_image_features` on it (`none` models a per-file extraction failure).
`cancel n` is the value of the `cancel_check()` call made at the start of
the `n`-th loop iteration (0-based); `none` for `cancel_check` in Python
corresponds to `fun _ => false`. -/

/-- One entry of `top_matches`: the `(distance, file_path, metrics)` tuple. -/
structure Match (δ : Type) (μ : Type) where
  dist : δ
  path : String
  metrics : μ
deriving DecidableEq

/-- Sort a match list the way `top_matches.sort(key=lambda x: x[0])` does. -/
def sortMatches {δ μ : Type} [LinearOrder δ] (l : List (Match δ μ)) : List (Match δ μ) :=
  pySortKey Match.dist l

/-- Result of the candidate loop: the value returned by
`find_matching_skins` (match list or `None`, error message or `None`)
together with the final values of the local counters `processed_files`
and `skipped_files` (the counters are internal to the Python function;
they are carried here so that theorems can speak about them). -/
structure RunOut (δ μ : Type) where
  res : Option (List (Match δ μ))
  error : Option String
  processed : Nat
  skipped : Nat
deriving DecidableEq

/-- The `for idx, file_path in enumerate(all_files, 1):` loop of
`find_matching_skins` (src/utils/skin_matcher.py lines 69-99).  Progress
reporting (lines 87-97) only formats messages and is omitted: it does not
touch `top_matches` or the counters. -/
def runLoop {φ δ μ : Type} [LinearOrder δ] (sim : φ → δ × μ) (topN : Nat)
    (cancel : Nat → Bool) :
    Nat → List (Match δ μ) → Nat → Nat → List (String × Option φ) → RunOut δ μ
  | _, topMatches, processed, skipped, [] =>
      -- `return top_matches, None`
      ⟨some topMatches, none, processed, skipped⟩
  | idx, topMatches, processed, skipped, (path, feat) :: rest =>
      if cancel idx then
        -- `return top_matches if top_matches else None, "Cancelled by user"`
        ⟨if topMatches.isEmpty then none else some topMatches,
         some "Cancelled by user", processed, skipped⟩
      else
        match feat with
        | some cf =>
            let dm := sim cf
            runLoop sim topN cancel (idx + 1)
              ((sortMatches (topMatches ++ [⟨dm.1, path, dm.2⟩])).take topN)
              (processed + 1) skipped rest
        | none =>
            runLoop sim topN cancel (idx + 1) topMatches processed (skipped + 1) rest

/-- `find_matching_skins` (src/utils/skin_matcher.py lines 21-99).
`targetRes` is the `(target_features, error)` pair produced by
`get_image_features(target_image_path)`; `files` is what
`collect_all_files(search_directory)` returned, each path paired with its
own `get_image_features` outcome; `sim tf cf` is
`calculate_similarity(tf, cf, algorithm)`.  The returned pair mirrors the
Python return value exactly. -/
def find_matching_skins {φ δ μ : Type} [LinearOrder δ]
    (targetRes : Option φ × Option String) (sim : φ → φ → δ × μ)
    (files : List (String × Option φ)) (topN : Nat) (cancel : Nat → Bool) :
    Option (List (Match δ μ)) × Option String :=
  match targetRes with
  | (none, err) =>
      (none, some ("Could not extract features: " ++ err.getD ""))
  | (some tf, _) =>
      if files.length = 0 then
        (none, some "No files found in search directory")
      else
        let r := runLoop (sim tf) topN cancel 0 [] 0 0 files
        (r.res, r.error)

/-- The match records of the successfully processed candidates, in
traversal (encounter) order. -/
def processedList {φ δ μ : Type} (sim : φ → δ × μ)
    (files : List (String × Option φ)) : List (Match δ μ) :=
  files.filterMap fun pf => pf.2.map fun f => ⟨(sim f).1, pf.1, (sim f).2⟩

/-! ## Pixels and images

A decoded image is a pixel grid (`px row col`, row-major like a numpy
array of shape `(h, w, 4)`) with its dimensions.  PIL's
`img.convert('RGB')` on an RGBA image drops the alpha channel (it does
not composite), which is what `Pix.rgb` models. -/

structure Pix where
  r : Nat
  g : Nat
  b : Nat
  a : Nat
deriving DecidableEq

def Pix.zero : Pix := ⟨0, 0, 0, 0⟩

structure Img where
  w : Nat
  h : Nat
  px : Nat → Nat → Pix

def Pix.rgb (p : Pix) : Nat × Nat × Nat := (p.r, p.g, p.b)

/-- Build a concrete image from a row-major pixel list (used for concrete
inputs in the theorems below). -/
def imgOfList (w h : Nat) (l : List Pix) : Img :=
  ⟨w, h, fun y x => l.getD (y * w + x) Pix.zero⟩

/-- `np.array(img.convert('RGB'))` flattened row-major. -/
def Img.rgbData (img : Img) : List (Nat × Nat × Nat) :=
  ((List.range img.h).map fun y =>
    (List.range img.w).map fun x => (img.px y x).rgb).flatten

/-! ## `extract_dominant_colors_fast`

src/utils/feature_extractors.py lines 80-98 and the identical copy in
src/utils/image_matcher.py lines 130-155.  `np.unique` returns the
unique values in ascending order with their multiplicities.
`np.argsort` uses an unstable sort (introsort); it is modelled by a
stable sort here, which agrees with it whenever the counts are pairwise
distinct — every concrete input below has distinct counts. -/

/-- `(value // 16) * 16` per channel. -/
def quantize16 (c : Nat × Nat × Nat) : Nat × Nat × Nat :=
  (c.1 / 16 * 16, c.2.1 / 16 * 16, c.2.2 / 16 * 16)

/-- numpy uint8 left shift: `pixels_flat` is a uint8 array and the small
Python int shift counts do not promote it, so the shift is computed in
the uint8 result dtype.  numpy returns 0 for shift counts ≥ 8 and wraps
below that, which coincides with reduction modulo 2⁸ (for `s ≥ 8`,
`2^8 ∣ 2^s`). -/
def u8shiftL (v s : Nat) : Nat := (v <<< s) % 256

/-- numpy uint8 right shift (operand reduced to its uint8 value; shift
counts ≥ 8 yield 0, as plain `Nat` right shift already does on a value
below 256). -/
def u8shiftR (v s : Nat) : Nat := (v % 256) >>> s

/-- `(r << 16) | (g << 8) | b` — computed on uint8 arrays, so the red
and green contributions wrap to 0 and the code is just the quantized
blue value. -/
def packCode (c : Nat × Nat × Nat) : Nat :=
  u8shiftL c.1 16 ||| u8shiftL c.2.1 8 ||| (c.2.2 % 256)

/-- `(code >> 16) & 0xFF`, `(code >> 8) & 0xFF`, `code & 0xFF` — also on
uint8 values, so the recovered red and green components are always 0. -/
def unpackCode (code : Nat) : Nat × Nat × Nat :=
  (u8shiftR code 16 &&& 255, u8shiftR code 8 &&& 255, (code % 256) &&& 255)

/-- `np.unique(l, return_counts=True)`: ascending unique values paired
with their counts. -/
def npUnique (l : List Nat) : List (Nat × Nat) :=
  (pySortKey id l.dedup).map fun c => (c, l.count c)

/-- `np.argsort(counts)[-n:][::-1]` applied to value/count pairs: order
ascending by count, keep the last `n` (all of them when `n = 0`, as with
Python's `[-0:]`), reverse. -/
def topCounted (n : Nat) (pairs : List (Nat × Nat)) : List (Nat × Nat) :=
  let ordered := pySortKey Prod.snd pairs
  (if n = 0 then ordered else ordered.drop (ordered.length - n)).reverse

/-- `extract_dominant_colors_fast(img_array, n_colors)`.  Input is the
flattened RGB pixel data (the function reshapes to `(-1, 3)` anyway). -/
def extract_dominant_colors_fast (rgbData : List (Nat × Nat × Nat)) (nColors : Nat) :
    List (Nat × Nat × Nat) × List ℚ :=
  let codes := rgbData.map fun c => packCode (quantize16 c)
  let top := topCounted nColors (npUnique codes)
  let total : ℚ := ((top.map Prod.snd).sum : Nat)
  (top.map fun p => unpackCode p.1, top.map fun p => (p.2 : ℚ) / total)

/-! ## Other pure extractors from `src/utils/image_matcher.py` -/

/-- `is_minecraft_skin_texture` (image_matcher lines 181-184). -/
def is_minecraft_skin_texture (img : Img) : Bool :=
  (img.w == 64 && img.h == 64) || (img.w == 64 && img.h == 32)

/-- Python `range(0, stop, step)` for `step > 0`. -/
def pyRange (stop step : Nat) : List Nat :=
  (List.range ((stop + step - 1) / step)).map (· * step)

/-- `np.var` of a value list (population variance, as numpy computes). -/
def npVar (l : List ℚ) : ℚ :=
  let n : ℚ := l.length
  let m := l.sum / n
  (l.map fun x => (x - m) ^ 2).sum / n

/-- All channel values of the `bs × bs` block at `(i, j)` of the RGB
array, row-major. -/
def blockValues (img : Img) (i j bs : Nat) : List ℚ :=
  (((List.range bs).map fun di =>
    ((List.range bs).map fun dj =>
      let p := img.px (i + di) (j + dj)
      [(p.r : ℚ), (p.g : ℚ), (p.b : ℚ)]).flatten).flatten)

/-- `extract_texture_pattern` (image_matcher lines 187-202): variances of
small blocks. -/
def extract_texture_pattern (img : Img) : List ℚ :=
  if img.h < 8 ∨ img.w < 8 then [0]
  else
    let bs := min 8 (min (img.h / 8) (img.w / 8))
    let vars := ((pyRange (img.h - bs) bs).map fun i =>
      (pyRange (img.w - bs) bs).map fun j => npVar (blockValues img i j bs)).flatten
    if vars.isEmpty then [0] else vars

/-- The in-repo normalisation `hist = hist / (hist.sum() + 1e-10)` applied
to the raw bin counts (the binning itself is `np.histogramdd`, a library
call, passed in as an oracle). -/
def normalizeHist (counts : List ℚ) : List ℚ :=
  let s := counts.sum + 1 / 10 ^ 10
  counts.map (· / s)

/-! ## Render→skin converter (`src/utils/feature_extractors.py` lines 207-291)

`convert_render_to_skin` builds a 64×64 RGBA canvas of zeros and writes
fixed destination cells into it, in source order (later writes overwrite
earlier ones).  The only library call inside it is Pillow's
`Image.resize(..., LANCZOS)`; it is abstracted as the `Resize` parameter
(`resize src th tw` is the `th × tw` resampled grid).  `int(x * f)` on a
nonnegative value is modelled as the exact floor `frac`; Python's float
multiplication can differ from the exact product only within one ulp and
never at the integers relevant below.  `(avg * 0.8).astype(np.uint8)`
truncates; for channel values `c ≤ 255` this equals `⌊4c/5⌋` because the
double nearest to 0.8 is larger than 4/5 by less than 2⁻⁵⁴. -/

def Resize : Type := Img → Nat → Nat → (Nat → Nat → Pix)

/-- `int(n * (num/den))`. -/
def frac (n num den : Nat) : Nat := n * num / den

/-- numpy slice assignment `base[r1:r2, c1:c2] = block`. -/
def writeRect (base : Nat → Nat → Pix) (r1 r2 c1 c2 : Nat)
    (block : Nat → Nat → Pix) : Nat → Nat → Pix :=
  fun i j =>
    if r1 ≤ i ∧ i < r2 ∧ c1 ≤ j ∧ j < c2 then block (i - r1) (j - c1) else base i j

/-- `extract_and_resize(source_region, target_shape)` (lines 217-225):
clamp the region to the image, return zeros when it is empty, otherwise
resample the crop to the target shape.  (`max(0, ·)` is implicit in `ℕ`.) -/
def extract_and_resize (resize : Resize) (render : Img)
    (y1 y2 x1 x2 th tw : Nat) : Nat → Nat → Pix :=
  let y2c := min render.h y2
  let x2c := min render.w x2
  if y2c ≤ y1 ∨ x2c ≤ x1 then fun _ _ => Pix.zero
  else resize { w := x2c - x1, h := y2c - y1,
                px := fun i j => render.px (y1 + i) (x1 + j) } th tw

/-- The pixels of a `th × tw` block, row-major. -/
def blockPixList (block : Nat → Nat → Pix) (th tw : Nat) : List Pix :=
  ((List.range th).map fun i => (List.range tw).map fun j => block i j).flatten

/-- `get_average_color(region_array)` (lines 227-235): mean of the pixels
with alpha above 128, truncated to integers, alpha forced to 255; black
when no pixel qualifies.  (`np.mean(...).astype(np.uint8)` truncates,
which on nonnegative values is `ℕ` division.) -/
def get_average_color (block : Nat → Nat → Pix) (th tw : Nat) : Pix :=
  let vis := (blockPixList block th tw).filter fun p => 128 < p.a
  if vis.isEmpty then ⟨0, 0, 0, 255⟩
  else
    ⟨(vis.map Pix.r).sum / vis.length, (vis.map Pix.g).sum / vis.length,
     (vis.map Pix.b).sum / vis.length, 255⟩

/-- `(p * 0.8).astype(np.uint8)` on all four channels. -/
def darken08 (p : Pix) : Pix := ⟨p.r * 4 / 5, p.g * 4 / 5, p.b * 4 / 5, p.a * 4 / 5⟩

/-- `convert_render_to_skin(render_img)` (lines 207-291). Writes appear in
source order; there is no 64×64 special case in this function. -/
def convert_render_to_skin (resize : Resize) (render : Img) : Img :=
  let h := render.h
  let w := render.w
  let headTop := frac h 5 100
  let headBottom := frac h 35 100
  let headLeft := frac w 35 100
  let headRight := frac w 65 100
  let bodyTop := frac h 35 100
  let bodyBottom := frac h 70 100
  let bodyLeft := frac w 35 100
  let bodyRight := frac w 65 100
  let legTop := frac h 70 100
  let legBottom := frac h 95 100
  let legLeft := frac w 35 100
  let legRight := frac w 65 100
  let frontHead := extract_and_resize resize render
      (headTop + frac (headBottom - headTop) 4 10)
      (headBottom - frac (headBottom - headTop) 2 10)
      (headLeft + frac (headRight - headLeft) 3 10)
      (headRight - frac (headRight - headLeft) 3 10) 8 8
  let leftHead := extract_and_resize resize render
      (headTop + frac (headBottom - headTop) 4 10)
      (headBottom - frac (headBottom - headTop) 2 10)
      headLeft (headLeft + frac (headRight - headLeft) 3 10) 8 8
  let topHead := extract_and_resize resize render
      headTop (headTop + frac (headBottom - headTop) 3 10)
      (headLeft + frac (headRight - headLeft) 3 10)
      (headRight - frac (headRight - headLeft) 3 10) 8 8
  let avgHead := get_average_color frontHead 8 8
  let frontBody := extract_and_resize resize render
      (bodyTop + frac (bodyBottom - bodyTop) 1 10) bodyBottom
      (bodyLeft + frac (bodyRight - bodyLeft) 25 100)
      (bodyRight - frac (bodyRight - bodyLeft) 25 100) 12 8
  let leftBody := extract_and_resize resize render
      (bodyTop + frac (bodyBottom - bodyTop) 1 10) bodyBottom
      bodyLeft (bodyLeft + frac (bodyRight - bodyLeft) 25 100) 12 4
  let avgBody := get_average_color frontBody 12 8
  let rightArm := extract_and_resize resize render
      (bodyTop + frac (bodyBottom - bodyTop) 1 10) bodyBottom
      (bodyLeft - frac (bodyRight - bodyLeft) 15 100) bodyLeft 12 4
  let rightLeg := extract_and_resize resize render
      legTop legBottom
      (legLeft + frac (legRight - legLeft) 2 10)
      (legLeft + frac (legRight - legLeft) 4 10) 12 4
  let leftLeg := extract_and_resize resize render
      legTop legBottom
      (legLeft + frac (legRight - legLeft) 6 10)
      (legLeft + frac (legRight - legLeft) 8 10) 12 4
  let a0 : Nat → Nat → Pix := fun _ _ => Pix.zero
  let a1 := writeRect a0 8 16 8 16 frontHead
  let a2 := writeRect a1 8 16 16 24 leftHead
  let a3 := writeRect a2 0 8 8 16 topHead
  let a4 := writeRect a3 8 16 0 8 (fun i j => leftHead i (8 - 1 - j))
  let a5 := writeRect a4 8 16 24 32 (fun _ _ => avgHead)
  let a6 := writeRect a5 16 24 8 16 (fun _ _ => darken08 avgHead)
  let a7 := writeRect a6 20 32 20 28 frontBody
  let a8 := writeRect a7 20 32 16 20 leftBody
  let a9 := writeRect a8 20 32 28 32 (fun i j => leftBody i (4 - 1 - j))
  let a10 := writeRect a9 20 32 32 40 (fun _ _ => avgBody)
  let a11 := writeRect a10 20 32 44 48 rightArm
  let a12 := writeRect a11 20 32 36 40 rightArm
  let a13 := writeRect a12 20 32 4 8 rightLeg
  let a14 := writeRect a13 20 32 20 24 leftLeg
  { w := 64, h := 64, px := a14 }

/-- `extract_visible_skin_regions(skin_array)` (lines 294-315): the fixed
visible cells of a 64×64 skin, concatenated row-major.  (numpy flattens
each region to channel level; pixel granularity is kept here, which is
equivalent for the pixelwise comparisons that consume it.) -/
def extract_visible_skin_regions (px : Nat → Nat → Pix) : List Pix :=
  let region := fun (r1 r2 c1 c2 : Nat) =>
    ((List.range (r2 - r1)).map fun i =>
      (List.range (c2 - c1)).map fun j => px (r1 + i) (c1 + j)).flatten
  region 8 16 8 16 ++ region 8 16 16 24 ++ region 0 8 8 16 ++
  region 20 32 20 28 ++ region 20 32 28 32 ++ region 20 32 44 48 ++
  region 20 32 36 40 ++ region 20 32 4 8 ++ region 20 32 20 24

/-- `RenderToSkinAlgorithm.extract_features` (src/algorithms/render_to_skin.py
lines 30-43): the exact-64×64 check lives here, not in the converter —
a 64×64 input skips `convert_render_to_skin` entirely. -/
def renderToSkin_extract_features (resize : Resize) (img : Img) : List Pix :=
  if img.w = 64 ∧ img.h = 64 then
    extract_visible_skin_regions img.px
  else
    extract_visible_skin_regions (convert_render_to_skin resize img).px

/-! ## Numeric scoring primitives

Distances that take square roots are valued in `ℝ`; the feature data they
consume (pixel values, float vectors) is rational. -/

/-- `imagehash` hash subtraction: number of differing bits. -/
def hamming (x y : List Bool) : Nat := (x.zipWith (fun a b => a != b) y).count true

/-- `np.sum((h1 - h2) ** 2 / (h1 + h2 + 1e-10)) / 2` — the chi-squared
style histogram distance, written inline in both
`src/utils/image_matcher.py` and `src/algorithms/balanced.py`. -/
noncomputable def histChiSq (h1 h2 : List ℚ) : ℝ :=
  (h1.zipWith (fun a b => ((a : ℝ) - (b : ℝ)) ^ 2 / ((a : ℝ) + (b : ℝ) + 1 / 10 ^ 10)) h2).sum / 2

/-- Euclidean RGB distance between two colors. -/
noncomputable def colorEuclid (c1 c2 : Nat × Nat × Nat) : ℝ :=
  Real.sqrt (((c1.1 : ℝ) - (c2.1 : ℝ)) ^ 2 + ((c1.2.1 : ℝ) - (c2.2.1 : ℝ)) ^ 2 +
    ((c1.2.2 : ℝ) - (c2.2.2 : ℝ)) ^ 2)

/-- `min_dist = float('inf'); for c2 in colors2: min_dist = min(min_dist, dist)`.
Python's running minimum starts from `+∞`; over an empty `colors2` it
stays `+∞`, which `ℝ` cannot represent — that case is unreachable at
every call site (the image_matcher caller guards empty palettes, and the
feature_extractors caller only reaches it with the palette that also
provides `c1`); the empty case is given the value 0. -/
noncomputable def minColorDist (c1 : Nat × Nat × Nat) : List (Nat × Nat × Nat) → ℝ
  | [] => 0
  | c :: cs => cs.foldl (fun acc c2 => min acc (colorEuclid c1 c2)) (colorEuclid c1 c)

/-- `color_palette_distance_fast` of src/utils/feature_extractors.py
(lines 318-327): weighted sum of per-color minimum distances, normalised
by `255 * sqrt(3)`.  No clamping and no empty-palette guard in this
version. -/
noncomputable def color_palette_distance_fast (colors1 : List (Nat × Nat × Nat))
    (weights1 : List ℚ) (colors2 : List (Nat × Nat × Nat)) : ℝ :=
  (((colors1.zip weights1).map fun cw => (cw.2 : ℝ) * minColorDist cw.1 colors2).sum) /
    (255 * Real.sqrt 3)

/-- `color_palette_distance_fast` of src/utils/image_matcher.py
(lines 158-178): guards empty palettes with 1.0, normalises by the float
literal `441.67` and clamps at 1.0.  (`weights2` is accepted and unused,
as in the source.) -/
noncomputable def color_palette_distance_IM (colors1 : List (Nat × Nat × Nat))
    (weights1 : List ℚ) (colors2 : List (Nat × Nat × Nat)) (_weights2 : List ℚ) : ℝ :=
  if colors1.length = 0 ∨ colors2.length = 0 then 1
  else
    min ((((colors1.zip weights1).map fun cw => (cw.2 : ℝ) * minColorDist cw.1 colors2).sum) /
      (44167 / 100)) 1

/-- `calculate_ai_similarity` of src/utils/image_matcher.py (lines
303-315): `None` inputs give 1.0, otherwise the dot product mapped by
`(1 - s) / 2` and clamped into `[0, 1]`. -/
noncomputable def calculate_ai_similarity_IM (f1 f2 : Option (List ℚ)) : ℝ :=
  match f1, f2 with
  | some v1, some v2 =>
      let s : ℝ := (((v1.zipWith (· * ·) v2).sum : ℚ) : ℝ)
      max 0 (min ((1 - s) / 2) 1)
  | _, _ => 1

/-! ## `get_image_features` / `calculate_similarity`
(src/utils/image_matcher.py)

The feature dictionary is a record of optional fields: a field is `some`
exactly when `get_image_features` stores the corresponding key for the
requested algorithm name.  Library calls are the fields of `LibOracles`.
Where `calculate_similarity` indexes a key directly (`t['ahash']` …) a
missing key would raise `KeyError`; those reads are modelled with `getD`
defaults, which are unreachable whenever both bundles were produced by
`get_image_features` for the algorithm of the branch. -/

/-- A metric value: the metrics dicts hold floats, except the
`ai_unavailable` / `mobile_unavailable` flags which hold `True`. -/
inductive MVal where
  | num : ℝ → MVal
  | flag : Bool → MVal

abbrev Metrics : Type := List (String × MVal)

/-- Third-party library calls appearing in `get_image_features` and
`calculate_similarity`, as uninterpreted parameters:
`imagehash.average_hash` (bit grid), `np.histogramdd` (raw bin counts),
`extract_edge_features`' cv2/PIL core, `calculate_ssim_similarity`'s
skimage/PIL core, the two torch extractors, and the module-level
`TORCH_AVAILABLE` flag. -/
structure LibOracles where
  ahashFn : Img → List Bool
  histBinFn : Nat → List (Nat × Nat × Nat) → List ℚ
  edgeFn : Img → List Nat × ℚ
  ssimDistFn : Img → Img → ℝ
  aiFn : Img → Option (List ℚ)
  mobileFn : Img → Option (List ℚ)
  torchAvailable : Bool

/-- The feature dictionary built by `get_image_features`. -/
structure IMFeatures where
  algorithm : String
  path : String
  ahash : Option (List Bool)
  dominantColors : Option (List (Nat × Nat × Nat) × List ℚ)
  histogram : Option (List ℚ)
  isSkinTexture : Option Bool
  texturePattern : Option (List ℚ)
  dimensions : Option (Nat × Nat)
  edges : Option (List Nat)
  edgeDensity : Option ℚ
  imgForSsim : Option Img
  aiFeatures : Option (Option (List ℚ))
  aiAvailable : Option Bool
  mobileFeatures : Option (Option (List ℚ))
  mobileAvailable : Option Bool

def ahashAlgos : List String :=
  ["balanced", "skin_optimized", "fast", "ai_perceptual", "ai_mobile"]

def domColorAlgos : List String :=
  ["balanced", "skin_optimized", "color_distribution", "deep_features", "fast",
   "ai_perceptual", "ai_mobile"]

def histogramAlgos : List String :=
  ["balanced", "color_distribution", "fast", "ai_perceptual", "ai_mobile"]

/-- `get_image_features(image_path, algorithm)` (image_matcher lines
353-422).  `imgOpt = none` models a failed `Image.open` (the function
returns `(None, message)` from its `except` arms); note that no branch
examines whether `algorithm` is a known name — an unknown name simply
produces the minimal dictionary. -/
def get_image_features (lib : LibOracles) (path : String) (algorithm : String)
    (imgOpt : Option Img) : Option IMFeatures × Option String :=
  match imgOpt with
  | none => (none, some "File not found")
  | some img =>
      let rgb := img.rgbData
      (some {
        algorithm := algorithm
        path := path
        ahash := if algorithm ∈ ahashAlgos then some (lib.ahashFn img) else none
        dominantColors :=
          if algorithm ∈ domColorAlgos then
            some (extract_dominant_colors_fast rgb 12)
          else none
        histogram :=
          if algorithm ∈ histogramAlgos then
            some (normalizeHist (lib.histBinFn (if algorithm = "fast" then 16 else 24) rgb))
          else none
        isSkinTexture :=
          if algorithm = "skin_optimized" then some (is_minecraft_skin_texture img) else none
        texturePattern :=
          if algorithm = "skin_optimized" then some (extract_texture_pattern img) else none
        dimensions := if algorithm = "skin_optimized" then some (img.w, img.h) else none
        edges := if algorithm = "deep_features" then some (lib.edgeFn img).1 else none
        edgeDensity := if algorithm = "deep_features" then some (lib.edgeFn img).2 else none
        imgForSsim := if algorithm = "deep_features" then some img else none
        aiFeatures :=
          if algorithm = "ai_perceptual" ∧ lib.torchAvailable then some (lib.aiFn img) else none
        aiAvailable :=
          if algorithm = "ai_perceptual" then
            some (if lib.torchAvailable then (lib.aiFn img).isSome else false)
          else none
        mobileFeatures :=
          if algorithm = "ai_mobile" ∧ lib.torchAvailable then some (lib.mobileFn img) else none
        mobileAvailable :=
          if algorithm = "ai_mobile" then
            some (if lib.torchAvailable then (lib.mobileFn img).isSome else false)
          else none }, none)

/-- `ALGORITHM_WEIGHTS` (image_matcher lines 91-127). -/
noncomputable def ALGORITHM_WEIGHTS : List (String × List (String × ℝ)) :=
  [("balanced",
     [("dominant_colors", 0.60), ("color_histogram", 0.35), ("perceptual_hash", 0.05)]),
   ("skin_optimized",
     [("texture_pattern", 0.40), ("dominant_colors", 0.35), ("dimension_match", 0.15),
      ("color_histogram", 0.10)]),
   ("deep_features",
     [("edge_similarity", 0.50), ("ssim", 0.30), ("dominant_colors", 0.20)]),
   ("color_distribution",
     [("color_histogram", 0.70), ("dominant_colors", 0.30)]),
   ("fast",
     [("color_histogram", 0.80), ("perceptual_hash", 0.20)]),
   ("ai_perceptual",
     [("deep_features", 0.50), ("dominant_colors", 0.35), ("color_histogram", 0.15)]),
   ("ai_mobile",
     [("mobile_features", 0.75), ("dominant_colors", 0.15), ("color_histogram", 0.07),
      ("perceptual_hash", 0.03)])]

/-- Python dict indexing `weights['key']`; every reachable use has the
key present (a missing key would be a `KeyError`). -/
noncomputable def wlookup (w : List (String × ℝ)) (key : String) : ℝ :=
  (w.lookup key).getD 0

/-- `ALGORITHM_WEIGHTS.get(algorithm, ALGORITHM_WEIGHTS['balanced'])`. -/
noncomputable def weightsFor (a : String) : List (String × ℝ) :=
  (ALGORITHM_WEIGHTS.lookup a).getD ((ALGORITHM_WEIGHTS.lookup "balanced").getD [])

/-- `calculate_similarity(target_features, candidate_features, algorithm)`
(image_matcher lines 425-709).  The effective algorithm is read from the
target bundle (`target_features.get('algorithm', algorithm)`; the key is
always present in bundles built by `get_image_features`).  When no
`elif` branch matches — any unregistered name — the initialisers
`combined_distance = 0.0`, `metrics = {}` are returned unchanged. -/
noncomputable def calculate_similarity (lib : LibOracles) (t c : IMFeatures)
    (_algorithm : String) : ℝ × Metrics :=
  let a := t.algorithm
  let w := weightsFor a
  if a = "balanced" then
    let hashD : ℝ := (hamming (t.ahash.getD []) (c.ahash.getD []) : ℝ) / 64
    let dc1 := t.dominantColors.getD ([], [])
    let dc2 := c.dominantColors.getD ([], [])
    let histD := histChiSq (t.histogram.getD []) (c.histogram.getD [])
    let colorD := color_palette_distance_IM dc1.1 dc1.2 dc2.1 dc2.2
    let comb := wlookup w "perceptual_hash" * hashD + wlookup w "color_histogram" * histD +
      wlookup w "dominant_colors" * colorD
    (comb, [("hash_dist", .num (hashD * 64)), ("hist_dist", .num histD),
            ("color_dist", .num colorD), ("combined", .num comb)])
  else if a = "skin_optimized" then
    let dimD : ℝ := if c.isSkinTexture.getD false then 0 else 0.5
    let p1 := t.texturePattern.getD [0]
    let p2 := c.texturePattern.getD [0]
    let texD : ℝ :=
      if 0 < p1.length ∧ 0 < p2.length then
        let ml := min p1.length p2.length
        ((p1.take ml).zipWith (fun x y => |(x : ℝ) - (y : ℝ)|) (p2.take ml)).sum / ml / 100
      else 1
    let dc1 := t.dominantColors.getD ([], [])
    let dc2 := c.dominantColors.getD ([], [])
    let colorD := color_palette_distance_IM dc1.1 dc1.2 dc2.1 dc2.2
    let histD : ℝ :=
      match t.histogram, c.histogram with
      | some h1, some h2 => histChiSq h1 h2
      | _, _ => 0.5
    let comb := wlookup w "texture_pattern" * min texD 1 + wlookup w "dominant_colors" * colorD +
      wlookup w "dimension_match" * dimD + ((w.lookup "color_histogram").getD 0.1) * histD
    (comb, [("texture_dist", .num texD), ("color_dist", .num colorD),
            ("dim_match", .num (1 - dimD)), ("combined", .num comb)])
  else if a = "deep_features" then
    let ssimD : ℝ :=
      match t.imgForSsim, c.imgForSsim with
      | some i1, some i2 => lib.ssimDistFn i1 i2
      | _, _ => 1
    let edgeD : ℝ := |((t.edgeDensity.getD 0 : ℚ) : ℝ) - ((c.edgeDensity.getD 0 : ℚ) : ℝ)|
    let dc1 := t.dominantColors.getD ([], [])
    let dc2 := c.dominantColors.getD ([], [])
    let colorD := color_palette_distance_IM dc1.1 dc1.2 dc2.1 dc2.2
    let comb := wlookup w "edge_similarity" * edgeD + wlookup w "ssim" * ssimD +
      wlookup w "dominant_colors" * colorD
    (comb, [("edge_dist", .num edgeD), ("ssim_dist", .num ssimD),
            ("color_dist", .num colorD), ("combined", .num comb)])
  else if a = "color_distribution" then
    let histD := histChiSq (t.histogram.getD []) (c.histogram.getD [])
    let dc1 := t.dominantColors.getD ([], [])
    let dc2 := c.dominantColors.getD ([], [])
    let colorD := color_palette_distance_IM dc1.1 dc1.2 dc2.1 dc2.2
    let comb := wlookup w "color_histogram" * histD + wlookup w "dominant_colors" * colorD
    (comb, [("hist_dist", .num histD), ("color_dist", .num colorD), ("combined", .num comb)])
  else if a = "fast" then
    let hashD : ℝ := (hamming (t.ahash.getD []) (c.ahash.getD []) : ℝ) / 64
    let histD := histChiSq (t.histogram.getD []) (c.histogram.getD [])
    let comb := wlookup w "perceptual_hash" * hashD + wlookup w "color_histogram" * histD
    (comb, [("hash_dist", .num (hashD * 64)), ("hist_dist", .num histD),
            ("combined", .num comb)])
  else if a = "ai_perceptual" then
    if t.aiAvailable.getD false ∧ c.aiAvailable.getD false then
      let aiD := calculate_ai_similarity_IM (t.aiFeatures.getD none) (c.aiFeatures.getD none)
      let hashD : ℝ := (hamming (t.ahash.getD []) (c.ahash.getD []) : ℝ) / 64
      let dc1 := t.dominantColors.getD ([], [])
      let dc2 := c.dominantColors.getD ([], [])
      let colorD := color_palette_distance_IM dc1.1 dc1.2 dc2.1 dc2.2
      let histD := histChiSq (t.histogram.getD []) (c.histogram.getD [])
      let comb := wlookup w "deep_features" * (0.7 * aiD + 0.3 * hashD) +
        wlookup w "dominant_colors" * colorD + wlookup w "color_histogram" * histD
      (comb, [("ai_dist", .num aiD), ("hash_dist", .num (hashD * 64)),
              ("color_dist", .num colorD), ("hist_dist", .num histD), ("combined", .num comb)])
    else
      let dc1 := t.dominantColors.getD ([], [])
      let dc2 := c.dominantColors.getD ([], [])
      let colorD := color_palette_distance_IM dc1.1 dc1.2 dc2.1 dc2.2
      let histD := histChiSq (t.histogram.getD []) (c.histogram.getD [])
      let comb := 0.6 * colorD + 0.4 * histD
      (comb, [("color_dist", .num colorD), ("hist_dist", .num histD),
              ("ai_unavailable", .flag true), ("combined", .num comb)])
  else if a = "ai_mobile" then
    if t.mobileAvailable.getD false ∧ c.mobileAvailable.getD false then
      let mobD := calculate_ai_similarity_IM (t.mobileFeatures.getD none) (c.mobileFeatures.getD none)
      let hashD : ℝ := (hamming (t.ahash.getD []) (c.ahash.getD []) : ℝ) / 64
      let dc1 := t.dominantColors.getD ([], [])
      let dc2 := c.dominantColors.getD ([], [])
      let colorD := color_palette_distance_IM dc1.1 dc1.2 dc2.1 dc2.2
      let histD := histChiSq (t.histogram.getD []) (c.histogram.getD [])
      let comb := wlookup w "mobile_features" * mobD + wlookup w "dominant_colors" * colorD +
        wlookup w "color_histogram" * histD + wlookup w "perceptual_hash" * hashD
      (comb, [("mobile_dist", .num mobD), ("color_dist", .num colorD),
              ("hist_dist", .num histD), ("hash_dist", .num (hashD * 64)),
              ("combined", .num comb)])
    else
      let dc1 := t.dominantColors.getD ([], [])
      let dc2 := c.dominantColors.getD ([], [])
      let colorD := color_palette_distance_IM dc1.1 dc1.2 dc2.1 dc2.2
      let histD := histChiSq (t.histogram.getD []) (c.histogram.getD [])
      let comb := 0.6 * colorD + 0.4 * histD
      (comb, [("color_dist", .num colorD), ("hist_dist", .num histD),
              ("mobile_unavailable", .flag true), ("combined", .num comb)])
  else (0, [])

/-- The names `calculate_similarity`'s `elif` chain recognises (the keys
of `ALGORITHM_WEIGHTS`). -/
def dispatchedAlgos : List String :=
  ["balanced", "skin_optimized", "deep_features", "color_distribution", "fast",
   "ai_perceptual", "ai_mobile"]

/-- `find_matching_skins` composed with the real `get_image_features` /
`calculate_similarity` of src/utils/image_matcher.py: the search as the
GUI invokes it. -/
noncomputable def find_matching_skins_IM (lib : LibOracles) (algorithm : String)
    (targetImg : Option Img) (files : List (String × Option Img)) (topN : Nat)
    (cancel : Nat → Bool) : Option (List (Match ℝ Metrics)) × Option String :=
  find_matching_skins (get_image_features lib "target" algorithm targetImg)
    (fun tf cf => calculate_similarity lib tf cf algorithm)
    (files.map fun pf => (pf.1, (get_image_features lib pf.1 algorithm pf.2).1))
    topN cancel

/-! ## The algorithms package (`src/algorithms/`)

The registry (`AlgorithmRegistry._register_default_algorithms`) registers
exactly `render_to_skin`, `render_match`, `balanced` and
`color_frequency`.  Each class declares a `weights` property and a
`calculate_similarity`; feature bundles are per-class records holding the
data the class's `extract_features` stores. -/

noncomputable def balanced_weights : List (String × ℝ) :=
  [("dominant_colors", 0.60), ("color_histogram", 0.35), ("perceptual_hash", 0.05)]

noncomputable def render_to_skin_weights : List (String × ℝ) :=
  [("visible_regions", 1.0)]

noncomputable def render_match_weights : List (String × ℝ) :=
  [("color_palette", 0.70), ("spatial_pattern", 0.30)]

/-- `ColorFrequencyAlgorithm.weights` (color_frequency.py lines 27-31):
the single entry is the float literal `100.0`. -/
noncomputable def color_frequency_weights : List (String × ℝ) :=
  [("color_frequency", 100.0)]

/-- The registry contents after `_register_default_algorithms`
(src/algorithms/__init__.py lines 27-33), name → declared weights, in
registration order. -/
noncomputable def algorithm_registry : List (String × List (String × ℝ)) :=
  [("render_to_skin", render_to_skin_weights),
   ("render_match", render_match_weights),
   ("balanced", balanced_weights),
   ("color_frequency", color_frequency_weights)]

/-- Features stored by `BalancedAlgorithm.extract_features`. -/
structure BalancedFeatures where
  ahash : List Bool
  dominantColors : List (Nat × Nat × Nat)
  colorWeights : List ℚ
  histogram : List ℚ

/-- `BalancedAlgorithm.calculate_similarity` (balanced.py lines 59-90). -/
noncomputable def balanced_calculate_similarity (t c : BalancedFeatures) : ℝ × Metrics :=
  let hashD : ℝ := (hamming t.ahash c.ahash : ℝ) / 64
  let colorD := color_palette_distance_fast t.dominantColors t.colorWeights c.dominantColors
  let histD := histChiSq t.histogram c.histogram
  let comb := wlookup balanced_weights "dominant_colors" * colorD +
    wlookup balanced_weights "color_histogram" * histD +
    wlookup balanced_weights "perceptual_hash" * hashD
  (comb, [("hash_dist", .num (hashD * 64)), ("color_dist", .num colorD),
          ("hist_dist", .num histD), ("combined", .num comb)])

/-- Features stored by `RenderToSkinAlgorithm.extract_features`: the
visible-region pixel values (RGBA channel values, flattened). -/
structure RenderToSkinFeatures where
  visibleRegions : List ℚ

/-- `RenderToSkinAlgorithm.calculate_similarity` (render_to_skin.py lines
45-61): RMS pixel difference over the visible regions, normalised by 255. -/
noncomputable def render_to_skin_calculate_similarity (t c : RenderToSkinFeatures) :
    ℝ × Metrics :=
  let diffs := t.visibleRegions.zipWith (fun a b => ((a : ℝ) - (b : ℝ)) ^ 2) c.visibleRegions
  let pixelD := Real.sqrt (diffs.sum / diffs.length) / 255
  let comb := wlookup render_to_skin_weights "visible_regions" * pixelD
  (comb, [("pixel_dist", .num pixelD), ("combined", .num comb)])

/-- Features stored by `RenderMatchAlgorithm.extract_features`. -/
structure RenderMatchFeatures where
  renderColors : List (Nat × Nat × Nat)
  renderWeights : List ℚ
  renderSpatial : List ℚ

/-- `np.linalg.norm`. -/
noncomputable def vecNorm (v : List ℝ) : ℝ := Real.sqrt ((v.map (· ^ 2)).sum)

/-- `RenderMatchAlgorithm.calculate_similarity` (render_match.py lines
41-67). -/
noncomputable def render_match_calculate_similarity (t c : RenderMatchFeatures) :
    ℝ × Metrics :=
  let paletteD := color_palette_distance_fast t.renderColors t.renderWeights c.renderColors
  let s1 : List ℝ := t.renderSpatial.map (fun q => (Rat.cast q : ℝ))
  let s2 : List ℝ := c.renderSpatial.map (fun q => (Rat.cast q : ℝ))
  let spatialD := vecNorm (s1.zipWith (· - ·) s2) / (vecNorm s1 + vecNorm s2 + 1 / 10 ^ 10)
  let comb := wlookup render_match_weights "color_palette" * paletteD +
    wlookup render_match_weights "spatial_pattern" * spatialD
  (comb, [("palette_dist", .num paletteD), ("spatial_dist", .num spatialD),
          ("combined", .num comb)])

/-- Features stored by `ColorFrequencyAlgorithm.extract_features`: the
exact color → relative-frequency table plus the counts it records. -/
structure ColorFrequencyFeatures where
  colorFrequency : List ((Nat × Nat × Nat) × ℚ)
  uniqueColors : Nat
  totalPixels : Nat

/-- `freq.get(color, 0.0)`. -/
def freqGet (f : List ((Nat × Nat × Nat) × ℚ)) (c : Nat × Nat × Nat) : ℚ :=
  (f.lookup c).getD 0

/-- `ColorFrequencyAlgorithm.calculate_similarity` (color_frequency.py
lines 60-97).  The Python iterates over the set union of the keys; set
iteration order is irrelevant because the terms are summed. -/
noncomputable def color_frequency_calculate_similarity (t c : ColorFrequencyFeatures) :
    ℝ × Metrics :=
  let allColors := (t.colorFrequency.map Prod.fst ++ c.colorFrequency.map Prod.fst).dedup
  let totalDiff : ℚ :=
    (allColors.map fun col => |freqGet t.colorFrequency col - freqGet c.colorFrequency col|).sum
  let distance : ℝ := max 0 (min 1 ((totalDiff : ℝ) / 2))
  let overlap : Nat :=
    ((t.colorFrequency.map Prod.fst).dedup.filter
      (fun col => col ∈ c.colorFrequency.map Prod.fst)).length
  (distance,
   [("color_freq_distance", .num distance), ("unique_colors_1", .num t.uniqueColors),
    ("unique_colors_2", .num c.uniqueColors), ("color_overlap", .num overlap)])

/-! ## Auxiliary definitions for statements and concrete inputs -/

/-- Number of candidates the loop counts as skipped (extraction failed). -/
def skippedCount {φ : Type} (files : List (String × Option φ)) : Nat :=
  (files.filter fun pf => pf.2.isNone).length

/-- Library oracles returning fixed constants, used to instantiate the
image_matcher layer on concrete inputs (the claims evaluated with it do
not consult any oracle value). -/
noncomputable def constOracles : LibOracles :=
  { ahashFn := fun _ => []
    histBinFn := fun _ _ => []
    edgeFn := fun _ => ([], 0)
    ssimDistFn := fun _ _ => 1
    aiFn := fun _ => none
    mobileFn := fun _ => none
    torchAvailable := false }

/-- A concrete resampler (constant zero block), usable wherever a theorem
holds for every `Resize`. -/
def resize0 : Resize := fun _ _ _ => fun _ _ => Pix.zero

/-- A 1×1 opaque black image. -/
def unitImg : Img := ⟨1, 1, fun _ _ => ⟨0, 0, 0, 255⟩⟩

/-- A 64×64 fully white, fully opaque image. -/
def whiteImg : Img := ⟨64, 64, fun _ _ => ⟨255, 255, 255, 255⟩⟩

/-- A 3×1 image: one fully transparent dark-blue pixel `(0, 0, 128)` and
two opaque bright-blue pixels `(0, 0, 255)`.  (The pack/unpack codes are
uint8, so only the quantized blue channel survives; distinct blue values
keep the two pixel groups distinguishable.) -/
def transparentBlueImg : Img :=
  imgOfList 3 1 [⟨0, 0, 128, 0⟩, ⟨0, 0, 255, 255⟩, ⟨0, 0, 255, 255⟩]

/-! ## Lemmas about the stable sort -/

section StableSortLemmas

variable {α : Type} {κ : Type} [LinearOrder κ] (k : α → κ)

theorem insertKey_perm (m : α) (l : List α) : (insertKey k m l).Perm (m :: l) := by
  induction l with
  | nil => simp [insertKey]
  | cons x xs ih =>
      rw [insertKey]
      split
      · exact List.Perm.refl _
      · exact ((ih.cons x).trans (List.Perm.swap m x xs))

theorem insertKey_length (m : α) (l : List α) :
    (insertKey k m l).length = l.length + 1 := by
  simpa using (insertKey_perm k m l).length_eq

theorem insertKey_pairwise (m : α) {l : List α}
    (h : l.Pairwise fun a b => k a ≤ k b) :
    (insertKey k m l).Pairwise fun a b => k a ≤ k b := by
  induction l with
  | nil => simp [insertKey]
  | cons x xs ih =>
      rw [List.pairwise_cons] at h
      rw [insertKey]
      split
      · rename_i hlt
        refine List.pairwise_cons.mpr ⟨?_, List.pairwise_cons.mpr h⟩
        intro y hy
        rcases List.mem_cons.mp hy with rfl | hy
        · exact le_of_lt hlt
        · exact le_trans (le_of_lt hlt) (h.1 y hy)
      · rename_i hnlt
        refine List.pairwise_cons.mpr ⟨?_, ih h.2⟩
        intro y hy
        have hy' := (insertKey_perm k m xs).mem_iff.mp hy
        rcases List.mem_cons.mp hy' with rfl | hy''
        · exact le_of_not_lt hnlt
        · exact h.1 y hy''

theorem insertKey_append_of_le (m : α) {l : List α}
    (h : ∀ y ∈ l, k y ≤ k m) : insertKey k m l = l ++ [m] := by
  induction l with
  | nil => simp [insertKey]
  | cons x xs ih =>
      rw [insertKey, if_neg (not_lt.mpr (h x (List.mem_cons_self x xs)))]
      simp [ih fun y hy => h y (List.mem_cons_of_mem x hy)]

theorem foldl_insertKey_pairwise (l : List α) (acc : List α)
    (h : acc.Pairwise fun a b => k a ≤ k b) :
    (l.foldl (fun a x => insertKey k x a) acc).Pairwise fun a b => k a ≤ k b := by
  induction l generalizing acc with
  | nil => simpa using h
  | cons x xs ih => exact ih _ (insertKey_pairwise k x h)

theorem pySortKey_pairwise (l : List α) :
    (pySortKey k l).Pairwise fun a b => k a ≤ k b :=
  foldl_insertKey_pairwise k l [] (by simp)

theorem foldl_insertKey_perm (l : List α) (acc : List α) :
    (l.foldl (fun a x => insertKey k x a) acc).Perm (acc ++ l) := by
  induction l generalizing acc with
  | nil => simp
  | cons x xs ih =>
      refine (ih (insertKey k x acc)).trans ?_
      exact ((insertKey_perm k x acc).append_right xs).trans List.perm_middle.symm

theorem pySortKey_perm (l : List α) : (pySortKey k l).Perm l := by
  simpa using foldl_insertKey_perm k l []

theorem pySortKey_length (l : List α) : (pySortKey k l).length = l.length :=
  (pySortKey_perm k l).length_eq

theorem foldl_insertKey_of_pairwise (l : List α) (acc : List α)
    (h : (acc ++ l).Pairwise fun a b => k a ≤ k b) :
    l.foldl (fun a x => insertKey k x a) acc = acc ++ l := by
  induction l generalizing acc with
  | nil => simp
  | cons x xs ih =>
      have hx : ∀ y ∈ acc, k y ≤ k x := by
        rw [List.pairwise_append] at h
        exact fun y hy => h.2.2 y hy x (List.mem_cons_self x xs)
      have step : insertKey k x acc = acc ++ [x] := insertKey_append_of_le k x hx
      calc ((x :: xs).foldl (fun a y => insertKey k y a) acc)
          = xs.foldl (fun a y => insertKey k y a) (insertKey k x acc) := rfl
        _ = xs.foldl (fun a y => insertKey k y a) (acc ++ [x]) := by rw [step]
        _ = (acc ++ [x]) ++ xs := ih _ (by simpa using h)
        _ = acc ++ x :: xs := by simp

theorem pySortKey_of_pairwise {l : List α}
    (h : l.Pairwise fun a b => k a ≤ k b) : pySortKey k l = l := by
  simpa using foldl_insertKey_of_pairwise k l [] (by simpa using h)

theorem pySortKey_append_singleton (l : List α) (m : α) :
    pySortKey k (l ++ [m]) = insertKey k m (pySortKey k l) := by
  unfold pySortKey
  rw [List.foldl_append]
  rfl

theorem take_insertKey_take (K : Nat) (m : α) (l : List α) :
    (insertKey k m (l.take K)).take K = (insertKey k m l).take K := by
  induction l generalizing K with
  | nil => simp
  | cons x xs ih =>
      cases K with
      | zero => simp
      | succ K =>
          rw [List.take_cons_succ, insertKey, insertKey]
          split
          · cases K with
            | zero => simp
            | succ K' =>
                simp only [List.take_cons_succ, List.take_take]
                rw [Nat.min_eq_left (Nat.le_succ K')]
          · simp only [List.take_cons_succ]
            rw [ih K]

theorem insertKey_filter (m : α) {l : List α}
    (h : l.Pairwise fun a b => k a ≤ k b) (d : κ) :
    (insertKey k m l).filter (fun a => k a = d) =
      l.filter (fun a => k a = d) ++ (if k m = d then [m] else []) := by
  induction l with
  | nil => by_cases hmd : k m = d <;> simp [insertKey, hmd]
  | cons x xs ih =>
      rw [List.pairwise_cons] at h
      rw [insertKey]
      split
      · rename_i hlt
        by_cases hmd : k m = d
        · have hnone : ∀ y ∈ x :: xs, ¬ (k y = d) := by
            intro y hy hyd
            rcases List.mem_cons.mp hy with rfl | hy'
            · exact absurd hlt (by rw [hyd, hmd]; exact lt_irrefl d)
            · exact absurd (lt_of_lt_of_le hlt (h.1 y hy'))
                (by rw [hyd, hmd]; exact lt_irrefl d)
          rw [List.filter_cons_of_pos (by simp [hmd]),
            List.filter_eq_nil.mpr (by simpa using hnone), if_pos hmd]
          rfl
        · rw [if_neg hmd, List.filter_cons]
          by_cases hxd : k x = d <;> simp [hxd, hmd]
      · rw [List.filter_cons, List.filter_cons]
        by_cases hxd : k x = d <;> simp [hxd, ih h.2]

theorem foldl_insertKey_filter (l : List α) (acc : List α)
    (h : acc.Pairwise fun a b => k a ≤ k b) (d : κ) :
    (l.foldl (fun a x => insertKey k x a) acc).filter (fun a => k a = d) =
      acc.filter (fun a => k a = d) ++ l.filter (fun a => k a = d) := by
  induction l generalizing acc with
  | nil => simp
  | cons x xs ih =>
      calc (((x :: xs).foldl (fun a y => insertKey k y a) acc).filter (fun a => k a = d))
          = (xs.foldl (fun a y => insertKey k y a) (insertKey k x acc)).filter
              (fun a => k a = d) := rfl
        _ = (insertKey k x acc).filter (fun a => k a = d) ++
              xs.filter (fun a => k a = d) := ih _ (insertKey_pairwise k x h)
        _ = (acc.filter (fun a => k a = d) ++ (if k x = d then [x] else [])) ++
              xs.filter (fun a => k a = d) := by rw [insertKey_filter k x h d]
        _ = acc.filter (fun a => k a = d) ++ (x :: xs).filter (fun a => k a = d) := by
              rw [List.filter_cons]
              by_cases hxd : k x = d <;> simp [hxd]

theorem pySortKey_filter (l : List α) (d : κ) :
    (pySortKey k l).filter (fun a => k a = d) = l.filter (fun a => k a = d) := by
  simpa using foldl_insertKey_filter k l [] (by simp) d

end StableSortLemmas

/-! ## Lemmas about the search loop -/

section LoopLemmas

variable {φ δ μ : Type} [LinearOrder δ]

theorem sortMatches_nil : sortMatches ([] : List (Match δ μ)) = [] := rfl

theorem sortMatches_length (l : List (Match δ μ)) : (sortMatches l).length = l.length :=
  pySortKey_length Match.dist l

theorem sortMatches_step (P : List (Match δ μ)) (m : Match δ μ) (K : Nat) :
    (sortMatches ((sortMatches P).take K ++ [m])).take K =
      (sortMatches (P ++ [m])).take K := by
  unfold sortMatches
  rw [pySortKey_append_singleton, pySortKey_append_singleton,
    pySortKey_of_pairwise Match.dist
      (List.Pairwise.sublist (List.take_sublist K _) (pySortKey_pairwise Match.dist P)),
    take_insertKey_take]

theorem runLoop_complete (sim : φ → δ × μ) (topN : Nat) (cancel : Nat → Bool)
    (files : List (String × Option φ)) :
    ∀ (idx : Nat) (P : List (Match δ μ)) (p s : Nat),
      (∀ i, i < files.length → cancel (idx + i) = false) →
      runLoop sim topN cancel idx ((sortMatches P).take topN) p s files =
        ⟨some ((sortMatches (P ++ processedList sim files)).take topN), none,
         p + (processedList sim files).length, s + skippedCount files⟩ := by
  induction files with
  | nil =>
      intro idx P p s _
      simp [runLoop, processedList, skippedCount]
  | cons pf rest ih =>
      intro idx P p s hc
      obtain ⟨path, feat⟩ := pf
      have h0 : cancel idx = false := by simpa using hc 0 (by simp)
      have hc' : ∀ i, i < rest.length → cancel (idx + 1 + i) = false := by
        intro i hi
        have := hc (i + 1) (by simpa using Nat.succ_lt_succ hi)
        simpa [Nat.add_comm, Nat.add_left_comm, Nat.add_assoc] using this
      cases feat with
      | some f =>
          simp only [runLoop, h0, Bool.false_eq_true, if_false]
          rw [sortMatches_step P (Match.mk (sim f).1 path (sim f).2) topN,
            ih (idx + 1) (P ++ [Match.mk (sim f).1 path (sim f).2]) (p + 1) s hc']
          simp only [processedList, skippedCount, List.filterMap_cons, Option.map_some,
            List.filter_cons, List.append_assoc, List.singleton_append,
            List.length_cons, RunOut.mk.injEq]
          simp [skippedCount]
          omega
      | none =>
          simp only [runLoop, h0, Bool.false_eq_true, if_false]
          rw [ih (idx + 1) P p (s + 1) hc']
          simp only [processedList, skippedCount, List.filterMap_cons,
            List.filter_cons, RunOut.mk.injEq]
          simp [skippedCount]
          omega

theorem runLoop_cancel_at (sim : φ → δ × μ) (topN : Nat) (cancel : Nat → Bool) :
    ∀ (n : Nat) (files : List (String × Option φ)) (idx : Nat) (P : List (Match δ μ))
      (p s : Nat),
      n < files.length →
      (∀ i, i < n → cancel (idx + i) = false) →
      cancel (idx + n) = true →
      runLoop sim topN cancel idx ((sortMatches P).take topN) p s files =
        ⟨if ((sortMatches (P ++ processedList sim (files.take n))).take topN).isEmpty then
           none
         else some ((sortMatches (P ++ processedList sim (files.take n))).take topN),
         some "Cancelled by user",
         p + (processedList sim (files.take n)).length,
         s + skippedCount (files.take n)⟩ := by
  intro n
  induction n with
  | zero =>
      intro files idx P p s hlen _ hat
      match files, hlen with
      | (path, feat) :: rest, _ =>
          have h0 : cancel idx = true := by simpa using hat
          simp only [List.take_zero, processedList, List.filterMap_nil,
            List.append_nil, skippedCount, List.filter_nil, List.length_nil,
            Nat.add_zero]
          simp [runLoop, h0]
  | succ n ih =>
      intro files idx P p s hlen hbef hat
      match files, hlen with
      | (path, feat) :: rest, hlen =>
          have h0 : cancel idx = false := by simpa using hbef 0 (Nat.succ_pos n)
          have hbef' : ∀ i, i < n → cancel (idx + 1 + i) = false := by
            intro i hi
            have := hbef (i + 1) (by simpa using Nat.succ_lt_succ hi)
            simpa [Nat.add_comm, Nat.add_left_comm, Nat.add_assoc] using this
          have hat' : cancel (idx + 1 + n) = true := by
            have heq : idx + 1 + n = idx + (n + 1) := by omega
            rw [heq]; exact hat
          have hlen' : n < rest.length := by simpa using Nat.lt_of_succ_lt_succ hlen
          cases feat with
          | some f =>
              simp only [runLoop, h0, Bool.false_eq_true, if_false]
              rw [sortMatches_step P (Match.mk (sim f).1 path (sim f).2) topN,
                ih rest (idx + 1) (P ++ [Match.mk (sim f).1 path (sim f).2]) (p + 1) s hlen'
                  hbef' hat']
              simp only [List.take_succ_cons, processedList, skippedCount,
                List.filterMap_cons, Option.map_some, List.filter_cons,
                List.append_assoc, List.singleton_append, List.length_cons,
                RunOut.mk.injEq]
              simp [skippedCount]
              omega
          | none =>
              simp only [runLoop, h0, Bool.false_eq_true, if_false]
              rw [ih rest (idx + 1) P p (s + 1) hlen' hbef' hat']
              simp only [List.take_succ_cons, processedList, skippedCount,
                List.filterMap_cons, List.filter_cons, RunOut.mk.injEq]
              simp [skippedCount]
              omega

/-- A completed run of `find_matching_skins` (target features extracted,
some candidate files, the cancel signal never fires during the loop)
returns the `K` first entries of the stable sort of the processed
candidates, and no error. -/
theorem find_complete_run (sim : φ → φ → δ × μ) (tf : φ) (e : Option String)
    (files : List (String × Option φ)) (K : Nat) (cancel : Nat → Bool)
    (hne : files ≠ []) (hnc : ∀ i, i < files.length → cancel i = false) :
    find_matching_skins (some tf, e) sim files K cancel =
      (some ((sortMatches (processedList (sim tf) files)).take K), none) := by
  have hstep : find_matching_skins (some tf, e) sim files K cancel =
      (if files.length = 0 then (none, some "No files found in search directory")
       else ((runLoop (sim tf) K cancel 0 [] 0 0 files).res,
             (runLoop (sim tf) K cancel 0 [] 0 0 files).error)) := rfl
  rw [hstep, if_neg (by simpa using hne)]
  have h0 : ((sortMatches ([] : List (Match δ μ))).take K) = [] := by
    simp [sortMatches_nil]
  have := runLoop_complete (sim tf) K cancel files 0 [] 0 0 (by simpa using hnc)
  rw [h0] at this
  simp only [this, List.nil_append]

end LoopLemmas

section LoopClaims

variable {φ δ μ : Type} [LinearOrder δ]

/-- C1 (amended): for every completed search (target features extracted,
non-empty candidate list, cancel signal never firing), the returned match
list is the first `K` entries of the stable sort of the processed
candidates: its length is `min(K, processed_count)`, it is sorted
non-decreasingly (NOT strictly — equal distances are kept, see the
counterexample) by distance, and every returned distance is ≤ every
distance among the processed candidates that were not returned (the
dropped part of the sorted permutation). -/
theorem topk_search_invariant (sim : φ → φ → δ × μ) (tf : φ) (e : Option String)
    (files : List (String × Option φ)) (K : Nat) (cancel : Nat → Bool)
    (hne : files ≠ []) (hnc : ∀ i, i < files.length → cancel i = false) :
    find_matching_skins (some tf, e) sim files K cancel =
      (some ((sortMatches (processedList (sim tf) files)).take K), none) ∧
    (sortMatches (processedList (sim tf) files)).Perm (processedList (sim tf) files) ∧
    ((sortMatches (processedList (sim tf) files)).take K).length =
      min K (processedList (sim tf) files).length ∧
    ((sortMatches (processedList (sim tf) files)).take K).Pairwise
      (fun a b => a.dist ≤ b.dist) ∧
    (∀ m1 ∈ (sortMatches (processedList (sim tf) files)).take K,
     ∀ m2 ∈ (sortMatches (processedList (sim tf) files)).drop K, m1.dist ≤ m2.dist) := by
  refine ⟨find_complete_run sim tf e files K cancel hne hnc, ?_, ?_, ?_, ?_⟩
  · exact pySortKey_perm Match.dist _
  · rw [List.length_take, sortMatches_length]
  · exact List.Pairwise.sublist (List.take_sublist K _)
      (pySortKey_pairwise Match.dist _)
  · intro m1 h1 m2 h2
    have hS : ((sortMatches (processedList (sim tf) files)).take K ++
        (sortMatches (processedList (sim tf) files)).drop K).Pairwise
        (fun a b => a.dist ≤ b.dist) := by
      rw [List.take_append_drop]
      exact pySortKey_pairwise Match.dist _
    exact (List.pairwise_append.mp hS).2.2 m1 h1 m2 h2

/-- C1 witness: a concrete completed search (one readable candidate, one
unreadable), evaluated through the theorem. -/
theorem topk_search_invariant_witness :
    find_matching_skins ((some (), none) : Option Unit × Option String)
        (fun _ _ => ((1 : ℚ), ())) [("a", some ()), ("b", none)] 1 (fun _ => false) =
      (some [⟨1, "a", ()⟩], none) := by
  rw [(topk_search_invariant (fun _ _ => ((1 : ℚ), ())) () none
    [("a", some ()), ("b", none)] 1 (fun _ => false) (by simp) (fun i _ => rfl)).1]
  decide

/-- C1 counterexample: with two candidates at the same distance the
returned list contains the distance twice, so it is not STRICTLY
ascending as the claim states (it is non-strictly sorted). -/
theorem topk_not_strictly_sorted :
    find_matching_skins ((some (), none) : Option Unit × Option String)
        (fun _ _ => ((0 : ℚ), ())) [("a", some ()), ("b", some ())] 2 (fun _ => false) =
      (some [⟨0, "a", ()⟩, ⟨0, "b", ()⟩], none) ∧
    ¬ (([⟨0, "a", ()⟩, ⟨0, "b", ()⟩] : List (Match ℚ Unit)).Pairwise
        fun a b => a.dist < b.dist) := by
  exact ⟨by decide, by decide⟩

/-- C5 (amended): ties in distance are kept in encounter (traversal)
order — CPython's sort is stable and the candidates are appended in
traversal order — not compared by path: for every distance value `d`,
the returned candidates at distance `d` are an initial segment of the
processed candidates at distance `d` in traversal order.  The output is
deterministic for a fixed traversal order, but the tie-break is the
traversal order, not the path order (see the counterexample). -/
theorem topk_ties_encounter_order (sim : φ → φ → δ × μ) (tf : φ) (e : Option String)
    (files : List (String × Option φ)) (K : Nat) (cancel : Nat → Bool)
    (hne : files ≠ []) (hnc : ∀ i, i < files.length → cancel i = false) :
    find_matching_skins (some tf, e) sim files K cancel =
      (some ((sortMatches (processedList (sim tf) files)).take K), none) ∧
    ∀ d : δ, ∃ t,
      (processedList (sim tf) files).filter (fun m => m.dist = d) =
        ((sortMatches (processedList (sim tf) files)).take K).filter
          (fun m => m.dist = d) ++ t := by
  refine ⟨find_complete_run sim tf e files K cancel hne hnc, ?_⟩
  intro d
  refine ⟨((sortMatches (processedList (sim tf) files)).drop K).filter
    (fun m => m.dist = d), ?_⟩
  calc (processedList (sim tf) files).filter (fun m => m.dist = d)
      = (sortMatches (processedList (sim tf) files)).filter (fun m => m.dist = d) :=
        (pySortKey_filter Match.dist _ d).symm
    _ = ((sortMatches (processedList (sim tf) files)).take K ++
          (sortMatches (processedList (sim tf) files)).drop K).filter
          (fun m => m.dist = d) := by rw [List.take_append_drop]
    _ = _ := by rw [List.filter_append]

/-- C5 witness: a concrete completed search with a distance tie,
evaluated through the theorem. -/
theorem topk_ties_encounter_order_witness :
    find_matching_skins ((some (), none) : Option Unit × Option String)
        (fun _ _ => ((0 : ℚ), ())) [("a", some ()), ("b", some ())] 2 (fun _ => false) =
      (some [⟨0, "a", ()⟩, ⟨0, "b", ()⟩], none) := by
  rw [(topk_ties_encounter_order (fun _ _ => ((0 : ℚ), ())) () none
    [("a", some ()), ("b", some ())] 2 (fun _ => false) (by simp) (fun i _ => rfl)).1]
  decide

/-- C5 counterexample: the same candidate set (same two paths, equal
distances) traversed in two different orders yields two different output
orders — `[b, a]` versus `[a, b]` — so the relative order of
equal-distance candidates is NOT determined by the candidate file paths;
it is the traversal (encounter) order, which `os.walk` does not
normalise. -/
theorem topk_ties_not_by_path :
    find_matching_skins ((some (), none) : Option Unit × Option String)
        (fun _ _ => ((0 : ℚ), ())) [("b", some ()), ("a", some ())] 2 (fun _ => false) =
      (some [⟨0, "b", ()⟩, ⟨0, "a", ()⟩], none) ∧
    find_matching_skins ((some (), none) : Option Unit × Option String)
        (fun _ _ => ((0 : ℚ), ())) [("a", some ()), ("b", some ())] 2 (fun _ => false) =
      (some [⟨0, "a", ()⟩, ⟨0, "b", ()⟩], none) := by
  exact ⟨by decide, by decide⟩

/-- C9 (amended): when the cancel signal first fires at iteration `n`,
the search returns the partial top-K list accumulated over the first `n`
candidates — except that an EMPTY partial list is returned as `None`
(see the counterexample) — and the string `"Cancelled by user"` is
placed in the second tuple slot, the same slot that carries error
messages on the other early-return paths; the partial list satisfies the
top-K ordering invariant over the processed prefix. -/
theorem cancellation_keeps_topk (sim : φ → φ → δ × μ) (tf : φ) (e : Option String)
    (files : List (String × Option φ)) (K : Nat) (cancel : Nat → Bool) (n : Nat)
    (hn : n < files.length) (hbef : ∀ i, i < n → cancel i = false)
    (hat : cancel n = true) :
    find_matching_skins (some tf, e) sim files K cancel =
      (if ((sortMatches (processedList (sim tf) (files.take n))).take K).isEmpty then
         none
       else some ((sortMatches (processedList (sim tf) (files.take n))).take K),
       some "Cancelled by user") ∧
    ((sortMatches (processedList (sim tf) (files.take n))).take K).Pairwise
      (fun a b => a.dist ≤ b.dist) ∧
    ((sortMatches (processedList (sim tf) (files.take n))).take K).length =
      min K (processedList (sim tf) (files.take n)).length := by
  refine ⟨?_, ?_, ?_⟩
  · have hstep : find_matching_skins (some tf, e) sim files K cancel =
        (if files.length = 0 then (none, some "No files found in search directory")
         else ((runLoop (sim tf) K cancel 0 [] 0 0 files).res,
               (runLoop (sim tf) K cancel 0 [] 0 0 files).error)) := rfl
    rw [hstep, if_neg (by omega)]
    have h0 : ((sortMatches ([] : List (Match δ μ))).take K) = [] := by
      simp [sortMatches_nil]
    have hrun := runLoop_cancel_at (sim tf) K cancel n files 0 [] 0 0 hn
      (by simpa using hbef) (by simpa using hat)
    rw [h0] at hrun
    rw [hrun]
    simp
  · exact List.Pairwise.sublist (List.take_sublist K _)
      (pySortKey_pairwise Match.dist _)
  · rw [List.length_take, sortMatches_length]

/-- C9 witness: cancellation after one processed candidate returns the
non-empty partial list with the cancellation message. -/
theorem cancellation_keeps_topk_witness :
    find_matching_skins ((some (), none) : Option Unit × Option String)
        (fun _ _ => ((0 : ℚ), ())) [("a", some ()), ("b", some ())] 5
        (fun i => decide (1 ≤ i)) =
      (some [⟨0, "a", ()⟩], some "Cancelled by user") := by
  rw [(cancellation_keeps_topk (fun _ _ => ((0 : ℚ), ())) () none
    [("a", some ()), ("b", some ())] 5 (fun i => decide (1 ≤ i)) 1 (by decide)
    (fun i hi => by
      have h0 : i = 0 := by omega
      subst h0; rfl)
    (by decide)).1]
  decide

/-- C9 counterexample: if the cancel signal fires before any candidate is
processed, the accumulated partial list is `[]` but the search returns
`None` in its place (Python's `top_matches if top_matches else None`),
not the empty partial list; the cancellation indicator is the message
`"Cancelled by user"` in the error slot of the returned pair. -/
theorem cancellation_empty_none :
    find_matching_skins ((some (), none) : Option Unit × Option String)
        (fun _ _ => ((0 : ℚ), ())) [("a", some ())] 5 (fun _ => true) =
      (none, some "Cancelled by user") := by
  decide

/-- C10: with the target features extracted and zero files collected
under the search root, the search returns `None` together with the
message `"No files found in search directory"`. -/
theorem empty_directory_returns_error (sim : φ → φ → δ × μ) (tf : φ)
    (e : Option String) (K : Nat) (cancel : Nat → Bool) :
    find_matching_skins (some tf, e) sim ([] : List (String × Option φ)) K cancel =
      (none, some "No files found in search directory") := rfl

/-- C4 (amended): a completed search returns only the pair
`(match list, None)`; the `total/processed/skipped` counters are internal
to the loop and are not part of the return value — appending an
unreadable candidate changes the internal skipped counter but leaves the
returned value unchanged. -/
theorem counts_internal_only (sim : φ → φ → δ × μ) (tf : φ) (e : Option String)
    (files : List (String × Option φ)) (K : Nat) (cancel : Nat → Bool) (p : String)
    (hne : files ≠ []) (hnc : ∀ i, cancel i = false) :
    find_matching_skins (some tf, e) sim (files ++ [(p, none)]) K cancel =
      find_matching_skins (some tf, e) sim files K cancel ∧
    (runLoop (sim tf) K cancel 0 [] 0 0 (files ++ [(p, none)])).skipped =
      (runLoop (sim tf) K cancel 0 [] 0 0 files).skipped + 1 ∧
    (runLoop (sim tf) K cancel 0 [] 0 0 (files ++ [(p, none)])).processed =
      (runLoop (sim tf) K cancel 0 [] 0 0 files).processed := by
  have h0 : ((sortMatches ([] : List (Match δ μ))).take K) = [] := by
    simp [sortMatches_nil]
  have hP : processedList (sim tf) (files ++ [(p, none)]) =
      processedList (sim tf) files := by
    simp [processedList]
  have hrun1 := runLoop_complete (sim tf) K cancel (files ++ [(p, none)]) 0 [] 0 0
    (fun i _ => by simpa using hnc i)
  have hrun2 := runLoop_complete (sim tf) K cancel files 0 [] 0 0
    (fun i _ => by simpa using hnc i)
  rw [h0] at hrun1 hrun2
  refine ⟨?_, ?_, ?_⟩
  · rw [find_complete_run sim tf e (files ++ [(p, none)]) K cancel (by simp)
      (fun i _ => hnc i),
      find_complete_run sim tf e files K cancel hne (fun i _ => hnc i), hP]
  · rw [hrun1, hrun2]
    simp [skippedCount]
  · rw [hrun1, hrun2]
    simp [hP]

/-- C4 witness: a concrete pair of completed searches differing by one
unreadable file, compared through the theorem. -/
theorem counts_internal_only_witness :
    find_matching_skins ((some (), none) : Option Unit × Option String)
        (fun _ _ => ((0 : ℚ), ())) [("a", some ()), ("bad", none)] 1 (fun _ => false) =
      find_matching_skins ((some (), none) : Option Unit × Option String)
        (fun _ _ => ((0 : ℚ), ())) [("a", some ())] 1 (fun _ => false) := by
  exact (counts_internal_only (fun _ _ => ((0 : ℚ), ())) () none [("a", some ())] 1
    (fun _ => false) "bad" (by simp) (fun _ => rfl)).1

/-- C4 counterexample: two completed searches whose internal
total/processed/skipped counters differ (totals 2 vs 1, skipped 1 vs 0)
return identical values, so the returned value of `find_matching_skins`
— the pair `(top_matches, None)` — carries no file counts. -/
theorem counts_not_in_return :
    find_matching_skins ((some (), none) : Option Unit × Option String)
        (fun _ _ => ((0 : ℚ), ())) [("a", some ()), ("bad", none)] 5 (fun _ => false) =
      find_matching_skins ((some (), none) : Option Unit × Option String)
        (fun _ _ => ((0 : ℚ), ())) [("a", some ())] 5 (fun _ => false) ∧
    (runLoop (fun _ => ((0 : ℚ), ())) 5 (fun _ => false) 0 [] 0 0
        [("a", (some () : Option Unit)), ("bad", none)]).skipped = 1 ∧
    (runLoop (fun _ => ((0 : ℚ), ())) 5 (fun _ => false) 0 [] 0 0
        [("a", (some () : Option Unit))]).skipped = 0 ∧
    (runLoop (fun _ => ((0 : ℚ), ())) 5 (fun _ => false) 0 [] 0 0
        [("a", (some () : Option Unit)), ("bad", none)]).processed = 1 := by
  exact ⟨by decide, by decide, by decide, by decide⟩

end LoopClaims

/-! ## Converter claims -/

/-- C2 (amended): `convert_render_to_skin` itself performs the region
remapping for EVERY input, 64×64 included — for any resampler and any
input, the output's pixel (0,0) is the transparent black of the freshly
zeroed canvas (no write touches it), so the converter function is not a
pixel-identical passthrough.  The exact-64×64 bypass lives one level up:
`RenderToSkinAlgorithm.extract_features` skips the converter entirely for
a 64×64 input and reads the visible regions directly off the input. -/
theorem converter_passthrough_located :
    (∀ (resize : Resize) (render : Img),
      (convert_render_to_skin resize render).px 0 0 = Pix.zero) ∧
    (∀ (resize : Resize) (img : Img), img.w = 64 → img.h = 64 →
      renderToSkin_extract_features resize img =
        extract_visible_skin_regions img.px) := by
  constructor
  · intro resize render
    simp [convert_render_to_skin, writeRect]
  · intro resize img hw hh
    simp [renderToSkin_extract_features, hw, hh]

/-- C2 witness: the theorem applied to a concrete resampler and the
concrete 64×64 white image. -/
theorem converter_passthrough_located_witness :
    (convert_render_to_skin resize0 whiteImg).px 0 0 = Pix.zero ∧
    whiteImg.w = 64 ∧ whiteImg.h = 64 ∧
    renderToSkin_extract_features resize0 whiteImg =
      extract_visible_skin_regions whiteImg.px :=
  ⟨converter_passthrough_located.1 resize0 whiteImg, rfl, rfl,
   converter_passthrough_located.2 resize0 whiteImg rfl rfl⟩

/-- C2 counterexample: on the 64×64 all-white input the converter output
differs from the input at pixel (0,0) — transparent black versus opaque
white — so `convert_render_to_skin` is not a no-op passthrough for
exactly-64×64 inputs. -/
theorem converter_alters_64x64 :
    whiteImg.w = 64 ∧ whiteImg.h = 64 ∧
    (convert_render_to_skin resize0 whiteImg).px 0 0 ≠ whiteImg.px 0 0 := by
  refine ⟨rfl, rfl, ?_⟩
  decide

/-! ## Registry weight claims -/

/-- C7 (amended): of the four registered algorithms, `render_to_skin`,
`render_match` and `balanced` declare weights summing to 1.0, but
`color_frequency` declares the single weight `100.0` — its weights sum
to 100, not 1 (the weight is never used by its `calculate_similarity`). -/
theorem registry_weight_sums :
    algorithm_registry.map (fun p => (p.1, (p.2.map Prod.snd).sum)) =
      [("render_to_skin", (1 : ℝ)), ("render_match", 1), ("balanced", 1),
       ("color_frequency", 100)] := by
  simp only [algorithm_registry, render_to_skin_weights, render_match_weights,
    balanced_weights, color_frequency_weights, List.map_cons, List.map_nil,
    List.sum_cons, List.sum_nil]
  norm_num

/-- C7 counterexample: `color_frequency` is registered and its declared
weights sum to 100, not 1.0. -/
theorem color_frequency_weights_not_one :
    ("color_frequency", color_frequency_weights) ∈ algorithm_registry ∧
    (color_frequency_weights.map Prod.snd).sum = 100 ∧
    (color_frequency_weights.map Prod.snd).sum ≠ 1 := by
  refine ⟨by simp [algorithm_registry], ?_, ?_⟩
  · norm_num [color_frequency_weights]
  · norm_num [color_frequency_weights]

/-! ## Reflexivity of the registered similarity scores -/

theorem hamming_self (l : List Bool) : hamming l l = 0 := by
  unfold hamming
  rw [List.zipWith_same, List.count_eq_zero]
  intro hmem
  obtain ⟨a, _, h⟩ := List.mem_map.mp hmem
  simp at h

theorem histChiSq_self (h : List ℚ) : histChiSq h h = 0 := by
  unfold histChiSq
  rw [List.zipWith_same]
  rw [List.sum_eq_zero, zero_div]
  intro x hx
  obtain ⟨a, _, rfl⟩ := List.mem_map.mp hx
  simp

theorem colorEuclid_self (c : Nat × Nat × Nat) : colorEuclid c c = 0 := by
  simp [colorEuclid]

theorem colorEuclid_nonneg (c1 c2 : Nat × Nat × Nat) : 0 ≤ colorEuclid c1 c2 :=
  Real.sqrt_nonneg _

theorem foldl_min_nonneg (c1 : Nat × Nat × Nat) (l : List (Nat × Nat × Nat)) :
    ∀ acc : ℝ, 0 ≤ acc →
      0 ≤ l.foldl (fun a c2 => min a (colorEuclid c1 c2)) acc := by
  induction l with
  | nil => intro acc h; simpa using h
  | cons d ds ih =>
      intro acc h
      exact ih _ (le_min h (colorEuclid_nonneg c1 d))

theorem foldl_min_le_acc (c1 : Nat × Nat × Nat) (l : List (Nat × Nat × Nat)) :
    ∀ acc : ℝ, l.foldl (fun a c2 => min a (colorEuclid c1 c2)) acc ≤ acc := by
  induction l with
  | nil => intro acc; simp
  | cons d ds ih =>
      intro acc
      exact le_trans (ih _) (min_le_left _ _)

theorem foldl_min_le_of_mem (c1 c : Nat × Nat × Nat) (l : List (Nat × Nat × Nat)) :
    ∀ acc : ℝ, c ∈ l →
      l.foldl (fun a c2 => min a (colorEuclid c1 c2)) acc ≤ colorEuclid c1 c := by
  induction l with
  | nil => intro acc hc; simp at hc
  | cons d ds ih =>
      intro acc hc
      rcases List.mem_cons.mp hc with rfl | hc'
      · exact le_trans (foldl_min_le_acc c1 ds _) (min_le_right _ _)
      · exact ih _ hc'

theorem minColorDist_nonneg (c1 : Nat × Nat × Nat) (cs : List (Nat × Nat × Nat)) :
    0 ≤ minColorDist c1 cs := by
  cases cs with
  | nil => simp [minColorDist]
  | cons c rest =>
      unfold minColorDist
      exact foldl_min_nonneg c1 rest _ (colorEuclid_nonneg c1 c)

theorem minColorDist_le_mem (c1 c : Nat × Nat × Nat) (cs : List (Nat × Nat × Nat))
    (h : c ∈ cs) : minColorDist c1 cs ≤ colorEuclid c1 c := by
  cases cs with
  | nil => simp at h
  | cons d ds =>
      unfold minColorDist
      rcases List.mem_cons.mp h with rfl | h'
      · exact foldl_min_le_acc c1 ds _
      · exact foldl_min_le_of_mem c1 c ds _ h'

theorem minColorDist_self_mem (c1 : Nat × Nat × Nat) (cs : List (Nat × Nat × Nat))
    (h : c1 ∈ cs) : minColorDist c1 cs = 0 :=
  le_antisymm (by simpa [colorEuclid_self] using minColorDist_le_mem c1 c1 cs h)
    (minColorDist_nonneg c1 cs)

theorem color_palette_distance_fast_self (colors : List (Nat × Nat × Nat))
    (weights : List ℚ) : color_palette_distance_fast colors weights colors = 0 := by
  unfold color_palette_distance_fast
  rw [List.sum_eq_zero, zero_div]
  intro x hx
  obtain ⟨cw, hmem, rfl⟩ := List.mem_map.mp hx
  obtain ⟨c, w⟩ := cw
  have hc : c ∈ colors := (List.of_mem_zip hmem).1
  rw [minColorDist_self_mem c colors hc, mul_zero]

/-- C8: for every algorithm registered in the registry (`render_to_skin`,
`render_match`, `balanced`, `color_frequency`) and every feature bundle,
scoring the bundle against itself yields combined distance exactly 0 —
reflexivity of the similarity score.  (For `render_to_skin` the empty
region vector is excluded: there Python's `np.mean([])` is NaN, not a
number; extracted bundles always carry the fixed-size region vector.) -/
theorem registered_self_distance_zero :
    (∀ f : BalancedFeatures, (balanced_calculate_similarity f f).1 = 0) ∧
    (∀ f : RenderToSkinFeatures, f.visibleRegions ≠ [] →
      (render_to_skin_calculate_similarity f f).1 = 0) ∧
    (∀ f : RenderMatchFeatures, (render_match_calculate_similarity f f).1 = 0) ∧
    (∀ f : ColorFrequencyFeatures, (color_frequency_calculate_similarity f f).1 = 0) := by
  refine ⟨?_, ?_, ?_, ?_⟩
  · intro f
    simp [balanced_calculate_similarity, hamming_self, histChiSq_self,
      color_palette_distance_fast_self]
  · intro f _hne
    unfold render_to_skin_calculate_similarity
    rw [List.zipWith_same]
    have hz : (f.visibleRegions.map fun a => ((a : ℝ) - (a : ℝ)) ^ 2).sum = 0 := by
      rw [List.sum_eq_zero]
      intro x hx
      obtain ⟨a, _, rfl⟩ := List.mem_map.mp hx
      simp
    simp [hz]
  · intro f
    unfold render_match_calculate_similarity
    dsimp only
    rw [List.zipWith_same]
    have hz : vecNorm ((f.renderSpatial.map fun q => (Rat.cast q : ℝ)).map
        fun x => x - x) = 0 := by
      unfold vecNorm
      rw [List.sum_eq_zero, Real.sqrt_zero]
      intro y hy
      obtain ⟨x, hx, rfl⟩ := List.mem_map.mp hy
      obtain ⟨z, _, rfl⟩ := List.mem_map.mp hx
      simp
    rw [color_palette_distance_fast_self, hz]
    simp
  · intro f
    unfold color_frequency_calculate_similarity
    dsimp only
    have hz : (((f.colorFrequency.map Prod.fst ++ f.colorFrequency.map Prod.fst).dedup).map
        fun col => |freqGet f.colorFrequency col - freqGet f.colorFrequency col|).sum = 0 := by
      rw [List.sum_eq_zero]
      intro x hx
      obtain ⟨col, _, rfl⟩ := List.mem_map.mp hx
      simp
    rw [hz]
    norm_num

/-- C8 witness: reflexivity evaluated at concrete bundles for all four
registered algorithms. -/
theorem registered_self_distance_zero_witness :
    (balanced_calculate_similarity ⟨[true], [(16, 16, 16)], [1], [1]⟩
      ⟨[true], [(16, 16, 16)], [1], [1]⟩).1 = 0 ∧
    (([(1 : ℚ)] : List ℚ) ≠ []) ∧
    (render_to_skin_calculate_similarity ⟨[1]⟩ ⟨[1]⟩).1 = 0 ∧
    (render_match_calculate_similarity ⟨[(0, 0, 0)], [1], [2]⟩
      ⟨[(0, 0, 0)], [1], [2]⟩).1 = 0 ∧
    (color_frequency_calculate_similarity ⟨[((1, 2, 3), 1)], 1, 4⟩
      ⟨[((1, 2, 3), 1)], 1, 4⟩).1 = 0 :=
  ⟨registered_self_distance_zero.1 _, by simp,
   registered_self_distance_zero.2.1 ⟨[1]⟩ (by simp),
   registered_self_distance_zero.2.2.1 _,
   registered_self_distance_zero.2.2.2 _⟩

/-! ## Alpha handling in dominant-color extraction -/

/-- C6 (amended): dominant-color extraction performs NO alpha-based
exclusion: `get_image_features` converts the image to RGB — dropping the
alpha channel — before `extract_dominant_colors_fast` quantises and
counts every pixel, so the stored dominant-color set depends only on the
RGB values (two images with the same dimensions and RGB data but
arbitrarily different alpha values produce identical dominant-color
features).  The only 128 alpha threshold in the repository is inside
`convert_render_to_skin`'s `get_average_color`, not in dominant-color
extraction. -/
theorem dominant_colors_alpha_blind (lib : LibOracles) (path alg : String)
    (img1 img2 : Img) (hw : img1.w = img2.w) (hh : img1.h = img2.h)
    (hrgb : ∀ y x, (img1.px y x).rgb = (img2.px y x).rgb) :
    ((get_image_features lib path alg (some img1)).1.map IMFeatures.dominantColors) =
      ((get_image_features lib path alg (some img2)).1.map IMFeatures.dominantColors) := by
  have hdata : img1.rgbData = img2.rgbData := by
    unfold Img.rgbData
    rw [hw, hh]
    apply congrArg
    apply List.map_congr_left
    intro y _
    apply List.map_congr_left
    intro x _
    exact hrgb y x
  simp [get_image_features, hdata]

/-- C6 witness: the theorem applied to two concrete 1×1 images differing
only in alpha. -/
theorem dominant_colors_alpha_blind_witness :
    ((⟨1, 1, fun _ _ => ⟨255, 0, 0, 0⟩⟩ : Img).w =
      (⟨1, 1, fun _ _ => ⟨255, 0, 0, 255⟩⟩ : Img).w) ∧
    ((get_image_features constOracles "p" "balanced"
        (some ⟨1, 1, fun _ _ => ⟨255, 0, 0, 0⟩⟩)).1.map IMFeatures.dominantColors) =
      ((get_image_features constOracles "p" "balanced"
        (some ⟨1, 1, fun _ _ => ⟨255, 0, 0, 255⟩⟩)).1.map IMFeatures.dominantColors) :=
  ⟨rfl, dominant_colors_alpha_blind constOracles "p" "balanced" _ _ rfl rfl
    (fun _ _ => rfl)⟩

/-- C6 counterexample: a 3-pixel RGBA image whose dark-blue pixel
`(0, 0, 128)` is fully transparent (alpha 0, far below the 128
threshold): the extracted dominant-color set is
`[(0, 0, 240), (0, 0, 128)]` — the second entry exists only because the
fully transparent pixel was quantised and counted like any other; had
pixels below the visibility threshold been excluded, the set would have
been `[(0, 0, 240)]` alone.  (The codes carry only the quantized blue
channel because the uint8 shifts in `extract_dominant_colors_fast`
wrap.) -/
theorem dominant_colors_include_transparent :
    ((get_image_features constOracles "p" "balanced" (some transparentBlueImg)).1.map
        (fun b => b.dominantColors.map Prod.fst)) =
      some (some [(0, 0, 240), (0, 0, 128)]) := by
  decide

/-! ## Unknown algorithm names -/

/-- C3 (amended): an unknown algorithm name does NOT fail the search
before traversal.  `get_image_features` raises no error for it (no code
path validates the name; the minimal bundle is returned), and
`calculate_similarity` falls back to the balanced weight table but then
matches no `elif` branch, returning the initial `(0.0, {})`.  A search
run with an unknown name therefore traverses the directory, processes
every readable candidate and returns a ranked result list in which every
distance is 0, instead of failing fast. -/
theorem unknown_algorithm_no_failfast (lib : LibOracles) (alg : String)
    (halg : alg ∉ dispatchedAlgos) :
    (∀ path img, (get_image_features lib path alg (some img)).2 = none ∧
      ((get_image_features lib path alg (some img)).1).isSome) ∧
    (∀ t c s, t.algorithm = alg → calculate_similarity lib t c s = (0, [])) ∧
    (∀ (targetImg : Img) (files : List (String × Option Img)) (K : Nat)
      (cancel : Nat → Bool), files ≠ [] →
      (∀ i, i < files.length → cancel i = false) →
      ∃ R, find_matching_skins_IM lib alg (some targetImg) files K cancel =
        (some R, none) ∧ ∀ m ∈ R, m.dist = 0) := by
  simp only [dispatchedAlgos, List.mem_cons, List.not_mem_nil, or_false, not_or] at halg
  obtain ⟨h1, h2, h3, h4, h5, h6, h7⟩ := halg
  have hsim : ∀ t c s, t.algorithm = alg →
      calculate_similarity lib t c s = ((0 : ℝ), ([] : Metrics)) := by
    intro t c s ht
    simp [calculate_similarity, ht, h1, h2, h3, h4, h5, h6, h7]
  refine ⟨?_, hsim, ?_⟩
  · intro path img
    simp [get_image_features]
  · intro targetImg files K cancel hne hnc
    obtain ⟨tb, htb⟩ : ∃ tb, (get_image_features lib "target" alg (some targetImg)).1 =
        some tb := ⟨_, rfl⟩
    have htbalg : tb.algorithm = alg := by
      simp [get_image_features] at htb
      rw [← htb]
    have hpair : get_image_features lib "target" alg (some targetImg) = (some tb, none) := by
      simp [get_image_features] at htb ⊢
      rw [← htb]
    refine ⟨(sortMatches (processedList
      (fun cf => calculate_similarity lib tb cf alg)
      (files.map fun pf => (pf.1, (get_image_features lib pf.1 alg pf.2).1)))).take K,
      ?_, ?_⟩
    · unfold find_matching_skins_IM
      rw [hpair]
      exact find_complete_run _ tb none _ K cancel (by simpa using hne)
        (fun i hi => hnc i (by simpa using hi))
    · intro m hm
      have hm1 : m ∈ sortMatches (processedList
          (fun cf => calculate_similarity lib tb cf alg)
          (files.map fun pf => (pf.1, (get_image_features lib pf.1 alg pf.2).1))) :=
        List.mem_of_mem_take hm
      have hm2 := (pySortKey_perm Match.dist _).mem_iff.mp hm1
      obtain ⟨pf, _, hpf⟩ := List.mem_filterMap.mp hm2
      obtain ⟨cf, _, rfl⟩ := Option.map_eq_some'.mp hpf
      have : (calculate_similarity lib tb cf alg) = ((0 : ℝ), ([] : Metrics)) :=
        hsim tb cf alg htbalg
      simp [this]

/-- C3 witness: the unknown name "nonexistent" at concrete inputs —
feature extraction succeeds and the branchless score is `(0, {})`. -/
theorem unknown_algorithm_no_failfast_witness :
    (get_image_features constOracles "q" "nonexistent" (some unitImg)).2 = none ∧
    ((get_image_features constOracles "q" "nonexistent" (some unitImg)).1).isSome :=
  (unknown_algorithm_no_failfast constOracles "nonexistent"
    (by simp [dispatchedAlgos])).1 "q" unitImg

/-- C3 counterexample: a search invoked with the unregistered algorithm
name "nonexistent" over one readable candidate does not fail: it
traverses, processes the candidate and returns one match at distance 0.0
with empty metrics. -/
theorem unknown_algorithm_search_completes :
    find_matching_skins_IM constOracles "nonexistent" (some unitImg)
        [("c.png", some unitImg)] 5 (fun _ => false) =
      (some [⟨0, "c.png", []⟩], none) := by
  rfl

end SkinLookup
